import Mathlib

/-!
Verification of the asm-lsp resolution engine (src/lsp.rs) against its
natural-language specification.  The Rust functions relevant to the claims are
shallowly embedded as executable Lean definitions; external collaborators
(tree-sitter queries, the file system, the demangler, the Display impls living
in the missing types.rs) are parametrized or modelled from the spec, as noted
on each definition.
-/

set_option maxRecDepth 4000

/-- Modelled from the spec: the five architecture tags of the missing types.rs
(the glossary lists exactly x86, x86-64, ARM, RISC-V, Z80); only these five are
consulted by the lookup functions in src/lsp.rs. -/
inductive Arch where
  | x86
  | x86_64
  | z80
  | arm
  | riscv
deriving DecidableEq, Repr

/-- Modelled from the spec: the five assembler/dialect tags of the missing
types.rs (GAS, Go-asm, Z80-asm, MASM, NASM), the five consulted by
search_for_dir_by_assembler in src/lsp.rs. -/
inductive Assembler where
  | gas
  | go
  | z80
  | masm
  | nasm
deriving DecidableEq, Repr

/-- The per-architecture Option-valued boolean gates read off
config.instruction_sets in src/lsp.rs (fields x86, x86_64, z80, arm, riscv). -/
structure InstructionSets where
  x86 : Option Bool
  x86_64 : Option Bool
  z80 : Option Bool
  arm : Option Bool
  riscv : Option Bool
deriving DecidableEq, Repr

/-- The per-assembler Option-valued boolean gates read off config.assemblers
in src/lsp.rs (fields gas, go, z80, masm, nasm). -/
structure Assemblers where
  gas : Option Bool
  go : Option Bool
  z80 : Option Bool
  masm : Option Bool
  nasm : Option Bool
deriving DecidableEq, Repr

/-- The slice of the Config record consumed by the resolution engine in
src/lsp.rs: the architecture and assembler gates. -/
structure Config where
  instruction_sets : InstructionSets
  assemblers : Assemblers
deriving DecidableEq, Repr

/-- An instruction form: the three per-dialect name slots read and written by
instr_filter_targets and get_sig_help_resp in src/lsp.rs. -/
structure InstructionForm where
  gas_name : Option String
  go_name : Option String
  z80_name : Option String
deriving DecidableEq, Repr

/-- An instruction record: the list of forms (x86/x86-64/z80) and the list of
assembler templates (ARM/RISC-V) consumed in src/lsp.rs. -/
structure Instruction where
  forms : List InstructionForm
  asm_templates : List String
deriving DecidableEq, Repr

/-- A register record; the engine only ever forwards its rendered
documentation, carried here as the doc field. -/
structure Register where
  doc : String
deriving DecidableEq, Repr

/-- A directive record; the engine only ever forwards its rendered
documentation, carried here as the doc field. -/
structure Directive where
  doc : String
deriving DecidableEq, Repr

/-- The HashMap of (Arch, name) to Instruction, modelled as its lookup
function. -/
def InstrMap : Type := Arch → String → Option Instruction

/-- The HashMap of (Arch, name) to Register, modelled as its lookup
function. -/
def RegMap : Type := Arch → String → Option Register

/-- The HashMap of (Assembler, name) to Directive, modelled as its lookup
function. -/
def DirMap : Type := Assembler → String → Option Directive

/-- The InstructionResp struct of src/lsp.rs: one optional instruction per
architecture. -/
structure InstructionResp where
  x86 : Option Instruction
  x86_64 : Option Instruction
  z80 : Option Instruction
  arm : Option Instruction
  riscv : Option Instruction
deriving DecidableEq, Repr

/-- The RegisterResp struct of src/lsp.rs. -/
structure RegisterResp where
  x86 : Option Register
  x86_64 : Option Register
  z80 : Option Register
  arm : Option Register
  riscv : Option Register
deriving DecidableEq, Repr

/-- The DirectiveResp struct of src/lsp.rs: one optional directive per
assembler. -/
structure DirectiveResp where
  gas : Option Directive
  go : Option Directive
  z80 : Option Directive
  masm : Option Directive
  nasm : Option Directive
deriving DecidableEq, Repr

/-- InstructionResp has_resp of src/lsp.rs. -/
def InstructionResp.has_resp (r : InstructionResp) : Bool :=
  r.x86.isSome || r.x86_64.isSome || r.z80.isSome || r.arm.isSome || r.riscv.isSome

/-- RegisterResp has_resp of src/lsp.rs. -/
def RegisterResp.has_resp (r : RegisterResp) : Bool :=
  r.x86.isSome || r.x86_64.isSome || r.z80.isSome || r.arm.isSome || r.riscv.isSome

/-- DirectiveResp has_resp of src/lsp.rs. -/
def DirectiveResp.has_resp (r : DirectiveResp) : Bool :=
  r.gas.isSome || r.go.isSome || r.z80.isSome || r.masm.isSome || r.nasm.isSome

/-- search_for_instr_by_arch of src/lsp.rs: each architecture slot is looked up
only when its gate unwraps to true (unwrap_or(false)). -/
def search_for_instr_by_arch (word : String) (instr_map : InstrMap) (config : Config) :
    InstructionResp :=
  let lookup := fun (arch : Arch) (check : Bool) =>
    if check then instr_map arch word else none
  { x86 := lookup .x86 (config.instruction_sets.x86.getD false)
    x86_64 := lookup .x86_64 (config.instruction_sets.x86_64.getD false)
    z80 := lookup .z80 (config.instruction_sets.z80.getD false)
    arm := lookup .arm (config.instruction_sets.arm.getD false)
    riscv := lookup .riscv (config.instruction_sets.riscv.getD false) }

/-- search_for_reg_by_arch of src/lsp.rs. -/
def search_for_reg_by_arch (word : String) (reg_map : RegMap) (config : Config) :
    RegisterResp :=
  let lookup := fun (arch : Arch) (check : Bool) =>
    if check then reg_map arch word else none
  { x86 := lookup .x86 (config.instruction_sets.x86.getD false)
    x86_64 := lookup .x86_64 (config.instruction_sets.x86_64.getD false)
    z80 := lookup .z80 (config.instruction_sets.z80.getD false)
    arm := lookup .arm (config.instruction_sets.arm.getD false)
    riscv := lookup .riscv (config.instruction_sets.riscv.getD false) }

/-- search_for_dir_by_assembler of src/lsp.rs. -/
def search_for_dir_by_assembler (word : String) (dir_map : DirMap) (config : Config) :
    DirectiveResp :=
  let lookup := fun (assem : Assembler) (check : Bool) =>
    if check then dir_map assem word else none
  { gas := lookup .gas (config.assemblers.gas.getD false)
    go := lookup .go (config.assemblers.go.getD false)
    z80 := lookup .z80 (config.assemblers.z80.getD false)
    masm := lookup .masm (config.assemblers.masm.getD false)
    nasm := lookup .nasm (config.assemblers.nasm.getD false) }

/-- An Option Bool gate that is not Some true unwraps (with default false) to
false: both None and Some false count as disabled. -/
theorem gate_not_true_getD_false {o : Option Bool} (h : o ≠ some true) :
    o.getD false = false := by
  cases o with
  | none => rfl
  | some b => cases b with
    | true => exact absurd rfl h
    | false => rfl

/-- C2: for every configuration and word, the instruction, register and
directive lookups return nothing for an architecture or assembler whose gate is
not Some true; in particular an unset (None) gate behaves as disabled. -/
theorem instr_reg_dir_lookup_respects_gates
    (config : Config) (word : String)
    (imap : InstrMap) (rmap : RegMap) (dmap : DirMap) :
    (config.instruction_sets.x86 ≠ some true →
      (search_for_instr_by_arch word imap config).x86 = none ∧
      (search_for_reg_by_arch word rmap config).x86 = none) ∧
    (config.instruction_sets.x86_64 ≠ some true →
      (search_for_instr_by_arch word imap config).x86_64 = none ∧
      (search_for_reg_by_arch word rmap config).x86_64 = none) ∧
    (config.instruction_sets.z80 ≠ some true →
      (search_for_instr_by_arch word imap config).z80 = none ∧
      (search_for_reg_by_arch word rmap config).z80 = none) ∧
    (config.instruction_sets.arm ≠ some true →
      (search_for_instr_by_arch word imap config).arm = none ∧
      (search_for_reg_by_arch word rmap config).arm = none) ∧
    (config.instruction_sets.riscv ≠ some true →
      (search_for_instr_by_arch word imap config).riscv = none ∧
      (search_for_reg_by_arch word rmap config).riscv = none) ∧
    (config.assemblers.gas ≠ some true →
      (search_for_dir_by_assembler word dmap config).gas = none) ∧
    (config.assemblers.go ≠ some true →
      (search_for_dir_by_assembler word dmap config).go = none) ∧
    (config.assemblers.z80 ≠ some true →
      (search_for_dir_by_assembler word dmap config).z80 = none) ∧
    (config.assemblers.masm ≠ some true →
      (search_for_dir_by_assembler word dmap config).masm = none) ∧
    (config.assemblers.nasm ≠ some true →
      (search_for_dir_by_assembler word dmap config).nasm = none) := by
  refine ⟨?_, ?_, ?_, ?_, ?_, ?_, ?_, ?_, ?_, ?_⟩ <;>
    intro h <;>
    simp [search_for_instr_by_arch, search_for_reg_by_arch,
      search_for_dir_by_assembler, gate_not_true_getD_false h]

/-- A configuration in which every gate is left unset. -/
def configAllUnset : Config :=
  { instruction_sets := { x86 := none, x86_64 := none, z80 := none, arm := none, riscv := none }
    assemblers := { gas := none, go := none, z80 := none, masm := none, nasm := none } }

/-- An instruction map answering every query. -/
def imapTotal : InstrMap := fun _ _ => some { forms := [], asm_templates := [] }

/-- A register map answering every query. -/
def rmapTotal : RegMap := fun _ _ => some { doc := "r" }

/-- A directive map answering every query. -/
def dmapTotal : DirMap := fun _ _ => some { doc := "d" }

/-- Witness for C2: with every gate unset and knowledge-base maps that answer
every query, all fifteen lookup slots come back empty. -/
theorem instr_reg_dir_lookup_respects_gates_witness :
    (search_for_instr_by_arch "mov" imapTotal configAllUnset).x86 = none ∧
    (search_for_reg_by_arch "mov" rmapTotal configAllUnset).x86 = none ∧
    (search_for_dir_by_assembler "mov" dmapTotal configAllUnset).nasm = none := by
  have h := instr_reg_dir_lookup_respects_gates configAllUnset "mov"
    imapTotal rmapTotal dmapTotal
  exact ⟨(h.1 (by simp [configAllUnset])).1, (h.1 (by simp [configAllUnset])).2,
    h.2.2.2.2.2.2.2.2.2 (by simp [configAllUnset])⟩

/-- A hover response; the engine always produces Markdown markup content, so
only the rendered value is modelled. -/
structure Hover where
  value : String
deriving DecidableEq, Repr

/-- instr_filter_targets of src/lsp.rs: keep a form when (gas name present and
gas enabled) or (go name present and go enabled) or (z80 name present and the
z80 instruction-set gate enabled); then on each kept form clear the gas name if
gas is disabled and the go name if go is disabled. -/
def instr_filter_targets (instr : Instruction) (config : Config) : Instruction :=
  { instr with
    forms :=
      (instr.forms.filter fun form =>
        (form.gas_name.isSome && config.assemblers.gas.getD false) ||
        (form.go_name.isSome && config.assemblers.go.getD false) ||
        (form.z80_name.isSome && config.instruction_sets.z80.getD false)).map
      fun form =>
        let f1 := if !(config.assemblers.gas.getD false) then
          { form with gas_name := none } else form
        if !(config.assemblers.go.getD false) then { f1 with go_name := none } else f1 }

/-- The Display impl for RegisterResp in src/lsp.rs: concatenate the present
entries in the order x86, x86-64, z80, arm, riscv, blank-line separated.  The
rendering of a single Register (its Display impl lives in the missing
types.rs) is its doc field. -/
def RegisterResp.render (r : RegisterResp) : String :=
  let s1 := match r.x86 with | some resp => resp.doc | none => ""
  let e1 := r.x86.isSome
  let s2 := match r.x86_64 with
    | some resp => (if e1 then "\n\n" else "") ++ resp.doc
    | none => ""
  let e2 := e1 || r.x86_64.isSome
  let s3 := match r.z80 with
    | some resp => (if e2 then "\n\n" else "") ++ resp.doc
    | none => ""
  let e3 := e2 || r.z80.isSome
  let s4 := match r.arm with
    | some resp => (if e3 then "\n\n" else "") ++ resp.doc
    | none => ""
  let e4 := e3 || r.arm.isSome
  let s5 := match r.riscv with
    | some resp => (if e4 then "\n\n" else "") ++ resp.doc
    | none => ""
  s1 ++ s2 ++ s3 ++ s4 ++ s5

/-- The Display impl for DirectiveResp in src/lsp.rs: concatenate the present
entries in the order gas, go, z80, masm, nasm, blank-line separated. -/
def DirectiveResp.render (r : DirectiveResp) : String :=
  let s1 := match r.gas with | some resp => resp.doc | none => ""
  let e1 := r.gas.isSome
  let s2 := match r.go with
    | some resp => (if e1 then "\n\n" else "") ++ resp.doc
    | none => ""
  let e2 := e1 || r.go.isSome
  let s3 := match r.z80 with
    | some resp => (if e2 then "\n\n" else "") ++ resp.doc
    | none => ""
  let e3 := e2 || r.z80.isSome
  let s4 := match r.masm with
    | some resp => (if e3 then "\n\n" else "") ++ resp.doc
    | none => ""
  let e4 := e3 || r.masm.isSome
  let s5 := match r.nasm with
    | some resp => (if e4 then "\n\n" else "") ++ resp.doc
    | none => ""
  s1 ++ s2 ++ s3 ++ s4 ++ s5

/-- get_instr_hover_resp of src/lsp.rs.  The Display impl of Instruction lives
in the missing types.rs, so the rendering of one instruction record is taken
as the parameter showInstr; x86 and x86-64 entries are rendered after
instr_filter_targets, the others directly. -/
def get_instr_hover_resp (word : String) (instr_map : InstrMap) (config : Config)
    (showInstr : Instruction → String) : Option Hover :=
  let instr_resp := search_for_instr_by_arch word instr_map config
  if !instr_resp.has_resp then none
  else
    let s1 := match instr_resp.x86 with
      | some resp => showInstr (instr_filter_targets resp config)
      | none => ""
    let e1 := instr_resp.x86.isSome
    let s2 := match instr_resp.x86_64 with
      | some resp => (if e1 then "\n\n" else "") ++ showInstr (instr_filter_targets resp config)
      | none => ""
    let e2 := e1 || instr_resp.x86_64.isSome
    let s3 := match instr_resp.z80 with
      | some resp => (if e2 then "\n\n" else "") ++ showInstr resp
      | none => ""
    let e3 := e2 || instr_resp.z80.isSome
    let s4 := match instr_resp.arm with
      | some resp => (if e3 then "\n\n" else "") ++ showInstr resp
      | none => ""
    let e4 := e3 || instr_resp.arm.isSome
    let s5 := match instr_resp.riscv with
      | some resp => (if e4 then "\n\n" else "") ++ showInstr resp
      | none => ""
    some { value := s1 ++ s2 ++ s3 ++ s4 ++ s5 }

/-- get_reg_hover_resp of src/lsp.rs. -/
def get_reg_hover_resp (word : String) (reg_map : RegMap) (config : Config) :
    Option Hover :=
  let reg_resp := search_for_reg_by_arch word reg_map config
  if !reg_resp.has_resp then none
  else some { value := reg_resp.render }

/-- get_directive_hover_resp of src/lsp.rs. -/
def get_directive_hover_resp (word : String) (dir_map : DirMap) (config : Config) :
    Option Hover :=
  let dir_resp := search_for_dir_by_assembler word dir_map config
  if !dir_resp.has_resp then none
  else some { value := dir_resp.render }

/-- The directive-lookup phase of get_hover_resp in src/lsp.rs (lines 626 to
646): when gas or masm is enabled only the bare word is tried; otherwise, when
nasm is enabled, the bare word is tried and then a percent-prefixed variant. -/
def hover_directive_phase (word : String) (dir_map : DirMap) (config : Config) :
    Option Hover :=
  if config.assemblers.gas.getD false || config.assemblers.masm.getD false then
    get_directive_hover_resp word dir_map config
  else if config.assemblers.nasm.getD false then
    match get_directive_hover_resp word dir_map config with
    | some h => some h
    | none => get_directive_hover_resp ("%" ++ word) dir_map config
  else
    none

/-- get_hover_resp of src/lsp.rs.  The label, demangling and include-file
sub-resolvers depend on tree-sitter, the demangler and the file system, all
external collaborators; their results are taken as parameters. -/
def get_hover_resp (word : String) (config : Config)
    (instr_map : InstrMap) (dir_map : DirMap) (reg_map : RegMap)
    (showInstr : Instruction → String)
    (label_resp demang_resp include_resp : Option Hover) : Option Hover :=
  match get_instr_hover_resp word instr_map config showInstr with
  | some h => some h
  | none =>
    match hover_directive_phase word dir_map config with
    | some h => some h
    | none =>
      match get_reg_hover_resp word reg_map config with
      | some h => some h
      | none =>
        match label_resp with
        | some h => some h
        | none =>
          match demang_resp with
          | some h => some h
          | none =>
            match include_resp with
            | some h => some h
            | none => none

/-- Modelled from the spec: the first Some result of a list of sub-resolver
results, None when all fail. -/
def firstSome {α : Type} : List (Option α) → Option α
  | [] => none
  | o :: rest =>
    match o with
    | some a => some a
    | none => firstSome rest

/-- C1: the hover resolver tries instruction lookup, the directive phase,
register lookup, label lookup, demangling and include resolution in that fixed
order, returns the first Some, and returns None (not an error) when all six
produce nothing. -/
theorem get_hover_resp_first_some (word : String) (config : Config)
    (imap : InstrMap) (dmap : DirMap) (rmap : RegMap)
    (showInstr : Instruction → String)
    (label_resp demang_resp include_resp : Option Hover) :
    get_hover_resp word config imap dmap rmap showInstr
        label_resp demang_resp include_resp =
      firstSome [get_instr_hover_resp word imap config showInstr,
        hover_directive_phase word dmap config,
        get_reg_hover_resp word rmap config,
        label_resp, demang_resp, include_resp] := by
  unfold get_hover_resp firstSome
  cases get_instr_hover_resp word imap config showInstr <;>
    cases hover_directive_phase word dmap config <;>
      cases get_reg_hover_resp word rmap config <;>
        cases label_resp <;> cases demang_resp <;> cases include_resp <;> rfl

/-- A configuration enabling both GAS and NASM, with all other gates unset. -/
def cfgGasNasm : Config :=
  { instruction_sets := { x86 := none, x86_64 := none, z80 := none, arm := none, riscv := none }
    assemblers := { gas := some true, go := none, z80 := none, masm := none, nasm := some true } }

/-- A configuration enabling only NASM. -/
def cfgNasmOnly : Config :=
  { instruction_sets := { x86 := none, x86_64 := none, z80 := none, arm := none, riscv := none }
    assemblers := { gas := none, go := none, z80 := none, masm := none, nasm := some true } }

/-- A directive map holding exactly one entry: the NASM directive named with a
percent prefix. -/
def dmapPercentRep : DirMap := fun assem name =>
  if assem = Assembler.nasm ∧ name = "%rep" then some { doc := "rep doc" } else none

/-- Counterexample to C3: with NASM enabled but GAS also enabled, the bare
cursor word misses, the percent-prefixed variant would hit, yet hover
resolution never tries it and the whole hover request returns None. -/
theorem hover_nasm_percent_retry_counterexample :
    cfgGasNasm.assemblers.nasm = some true ∧
    get_directive_hover_resp "rep" dmapPercentRep cfgGasNasm = none ∧
    get_directive_hover_resp "%rep" dmapPercentRep cfgGasNasm =
      some { value := "rep doc" } ∧
    get_hover_resp "rep" cfgGasNasm (fun _ _ => none) dmapPercentRep (fun _ _ => none)
      (fun _ => "") none none none = none := by
  refine ⟨rfl, by decide, by decide, by decide⟩

/-- C3 amended: the percent-prefixed directive variant is additionally looked
up (and its hit returned) only when NASM is enabled while neither GAS nor MASM
is; whenever GAS or MASM is enabled the directive phase tries only the bare
word. -/
theorem hover_nasm_percent_retry_amended (word : String) (dmap : DirMap) (config : Config) :
    (config.assemblers.nasm.getD false = true →
      config.assemblers.gas.getD false = false →
      config.assemblers.masm.getD false = false →
      get_directive_hover_resp word dmap config = none →
      hover_directive_phase word dmap config =
        get_directive_hover_resp ("%" ++ word) dmap config) ∧
    ((config.assemblers.gas.getD false || config.assemblers.masm.getD false) = true →
      hover_directive_phase word dmap config =
        get_directive_hover_resp word dmap config) := by
  constructor
  · intro hn hg hm hmiss
    unfold hover_directive_phase
    simp [hg, hm, hn, hmiss]
  · intro h
    unfold hover_directive_phase
    simp [h]

/-- Witness for the amended C3: with only NASM enabled and a bare word that
misses, the directive phase returns exactly the percent-variant lookup, which
here hits. -/
theorem hover_nasm_percent_retry_amended_witness :
    hover_directive_phase "rep" dmapPercentRep cfgNasmOnly =
      get_directive_hover_resp ("%" ++ "rep") dmapPercentRep cfgNasmOnly ∧
    get_directive_hover_resp ("%" ++ "rep") dmapPercentRep cfgNasmOnly =
      some { value := "rep doc" } := by
  exact ⟨(hover_nasm_percent_retry_amended "rep" dmapPercentRep cfgNasmOnly).1
    rfl rfl rfl (by decide), by decide⟩

/-- An Option Bool gate unwrapped with default false is the decision of it
being Some true. -/
theorem gate_getD_eq (o : Option Bool) : o.getD false = decide (o = some true) := by
  cases o with
  | none => rfl
  | some b => cases b <;> rfl

/-- Someness of an option is the decision of it being different from none. -/
theorem isSome_eq_decide {α : Type} [DecidableEq α] (o : Option α) :
    o.isSome = decide (o ≠ none) := by
  cases o <;> simp

/-- Modelled from the spec: a form is kept when at least one enabled dialect
provides a name for it (GAS and Go via the assembler gates, Z80 via the z80
instruction-set gate). -/
def keptBySpec (config : Config) (form : InstructionForm) : Prop :=
  (form.gas_name ≠ none ∧ config.assemblers.gas = some true) ∨
  (form.go_name ≠ none ∧ config.assemblers.go = some true) ∨
  (form.z80_name ≠ none ∧ config.instruction_sets.z80 = some true)

instance keptBySpecDecidable (config : Config) (form : InstructionForm) :
    Decidable (keptBySpec config form) := by
  unfold keptBySpec
  infer_instance

/-- Modelled from the spec (as amended): in a kept form the GAS and Go name
slots of disabled dialects are cleared, while the Z80 name slot is left
untouched. -/
def scrubBySpec (config : Config) (form : InstructionForm) : InstructionForm :=
  { gas_name := if config.assemblers.gas = some true then form.gas_name else none
    go_name := if config.assemblers.go = some true then form.go_name else none
    z80_name := form.z80_name }

/-- C4 amended: instr_filter_targets keeps exactly the forms named by at least
one enabled dialect, clears the GAS and Go name slots of disabled dialects in
each kept form, never clears the Z80 name slot, and leaves the templates
unchanged. -/
theorem instr_filter_targets_amended (instr : Instruction) (config : Config) :
    (instr_filter_targets instr config).forms =
      (instr.forms.filter fun f => decide (keptBySpec config f)).map (scrubBySpec config) ∧
    (instr_filter_targets instr config).asm_templates = instr.asm_templates := by
  refine ⟨?_, rfl⟩
  unfold instr_filter_targets
  have hfilter : (fun form : InstructionForm =>
      (form.gas_name.isSome && config.assemblers.gas.getD false) ||
      (form.go_name.isSome && config.assemblers.go.getD false) ||
      (form.z80_name.isSome && config.instruction_sets.z80.getD false)) =
      (fun f => decide (keptBySpec config f)) := by
    funext f
    obtain ⟨g1, g2, g3⟩ := f
    by_cases h1 : config.assemblers.gas = some true <;>
      by_cases h2 : config.assemblers.go = some true <;>
        by_cases h3 : config.instruction_sets.z80 = some true <;>
          cases g1 <;> cases g2 <;> cases g3 <;>
            simp [keptBySpec, gate_getD_eq, h1, h2, h3]
  have hmap : (fun form : InstructionForm =>
      let f1 := if !(config.assemblers.gas.getD false) then
        { form with gas_name := none } else form
      if !(config.assemblers.go.getD false) then { f1 with go_name := none } else f1) =
      scrubBySpec config := by
    funext f
    rw [gate_getD_eq config.assemblers.gas, gate_getD_eq config.assemblers.go]
    by_cases hg : config.assemblers.gas = some true <;>
      by_cases ho : config.assemblers.go = some true <;>
        simp [scrubBySpec, hg, ho]
  rw [hfilter, hmap]

/-- An instruction with a single form that carries both a GAS name and a Z80
name. -/
def instrGasZ80 : Instruction :=
  { forms := [{ gas_name := some "movl", go_name := none, z80_name := some "ld" }]
    asm_templates := [] }

/-- A configuration enabling only GAS. -/
def cfgGasOnly : Config :=
  { instruction_sets := { x86 := none, x86_64 := none, z80 := none, arm := none, riscv := none }
    assemblers := { gas := some true, go := none, z80 := none, masm := none, nasm := none } }

/-- Counterexample to C4: with GAS enabled and every Z80 gate disabled, the
form is kept (GAS names it) but its Z80 name slot is not nulled out, contrary
to the claim that every disabled dialect name slot is cleared. -/
theorem instr_filter_targets_z80_slot_counterexample :
    cfgGasOnly.instruction_sets.z80 ≠ some true ∧
    cfgGasOnly.assemblers.z80 ≠ some true ∧
    (instr_filter_targets instrGasZ80 cfgGasOnly).forms =
      [{ gas_name := some "movl", go_name := none, z80_name := some "ld" }] := by
  exact ⟨by decide, by decide, by decide⟩

/-- ASCII lower-casing of one character, as used by eq_ignore_ascii_case. -/
def asciiLower (c : Char) : Char :=
  if 'A' ≤ c ∧ c ≤ 'Z' then Char.ofNat (c.toNat + 32) else c

/-- The eq_ignore_ascii_case comparison of the Rust standard library. -/
def eqIgnoreAsciiCase (a b : String) : Bool :=
  a.toList.map asciiLower == b.toList.map asciiLower

/-- The x86/x86-64 form selection of get_sig_help_resp in src/lsp.rs: when a
GAS name is present only it is compared; the Go name is consulted only when no
GAS name exists. -/
def formMatchesX86 (instr_name : String) (form : InstructionForm) : Bool :=
  match form.gas_name with
  | some g => eqIgnoreAsciiCase instr_name g
  | none =>
    match form.go_name with
    | some g => eqIgnoreAsciiCase instr_name g
    | none => false

/-- The Z80 form selection of get_sig_help_resp in src/lsp.rs. -/
def formMatchesZ80 (instr_name : String) (form : InstructionForm) : Bool :=
  match form.z80_name with
  | some z => eqIgnoreAsciiCase instr_name z
  | none => false

/-- One per-architecture form loop of get_sig_help_resp: on each matching form,
emit the heading when the flag is still unset, then the rendered form and a
newline; returns the accumulated text and the final flag. -/
def sigFormLines (sel : InstructionForm → Bool) (showForm : InstructionForm → String)
    (heading : String) : List InstructionForm → Bool → String × Bool
  | [], has => ("", has)
  | f :: rest, has =>
    if sel f then
      let head := if !has then heading else ""
      let tail := sigFormLines sel showForm heading rest true
      (head ++ showForm f ++ "\n" ++ tail.1, tail.2)
    else sigFormLines sel showForm heading rest has

/-- The ARM/RISC-V template loop of get_sig_help_resp: every template is
emitted verbatim, with the heading emitted while the flag is unset. -/
def sigTemplateLines (heading : String) : List String → Bool → String × Bool
  | [], has => ("", has)
  | t :: rest, has =>
    let head := if !has then heading else ""
    let tail := sigTemplateLines heading rest true
    (head ++ t ++ "\n" ++ tail.1, tail.2)

/-- The value string built by get_sig_help_resp in src/lsp.rs.  Note the
source-faithful detail: the riscv block tests and sets the same has_arm flag
that the arm block uses, instead of a separate riscv flag. -/
def sig_help_value (instr_name : String) (resp : InstructionResp)
    (showForm : InstructionForm → String) : String :=
  let sx86 := match resp.x86 with
    | some i => (sigFormLines (formMatchesX86 instr_name) showForm "**x86**\n" i.forms false).1
    | none => ""
  let sx64 := match resp.x86_64 with
    | some i => (sigFormLines (formMatchesX86 instr_name) showForm "**x86_64**\n" i.forms false).1
    | none => ""
  let sz80 := match resp.z80 with
    | some i => (sigFormLines (formMatchesZ80 instr_name) showForm "**z80**\n" i.forms false).1
    | none => ""
  let armPair := match resp.arm with
    | some i => sigTemplateLines "**arm**\n" i.asm_templates false
    | none => ("", false)
  let sriscv := match resp.riscv with
    | some i => (sigTemplateLines "**riscv**\n" i.asm_templates armPair.2).1
    | none => ""
  sx86 ++ sx64 ++ sz80 ++ armPair.1 ++ sriscv

/-- A signature-help response: the mnemonic label and the Markdown value of
its single SignatureInformation. -/
structure SigHelp where
  label : String
  value : String
deriving DecidableEq, Repr

/-- get_sig_help_resp of src/lsp.rs from the point where the cursor-line query
has produced the mnemonic (the tree-sitter part is external; instr_name is
None when the query did not yield exactly one in-document capture).  The
rendering of one instruction form is the parameter showForm. -/
def get_sig_help_resp (instr_name : Option String) (config : Config) (imap : InstrMap)
    (showForm : InstructionForm → String) : Option SigHelp :=
  match instr_name with
  | none => none
  | some name =>
    let resp := search_for_instr_by_arch name imap config
    if !resp.has_resp then none
    else
      let value := sig_help_value name resp showForm
      if value = "" then none else some { label := name, value := value }

/-- Whether the pattern list sits at the head of the first list. -/
def leadsWith {α : Type} [DecidableEq α] : List α → List α → Bool
  | _, [] => true
  | [], _ :: _ => false
  | a :: rest, b :: pat => a == b && leadsWith rest pat

/-- Whether the pattern list occurs contiguously anywhere in the first list. -/
def containsSeq {α : Type} [DecidableEq α] : List α → List α → Bool
  | [], pat => pat.isEmpty
  | a :: rest, pat => leadsWith (a :: rest) pat || containsSeq rest pat

/-- An instruction whose only content is a single assembler template. -/
def instrNopTemplates : Instruction := { forms := [], asm_templates := ["nop"] }

/-- A configuration enabling only the ARM and RISC-V architectures. -/
def cfgArmRiscv : Config :=
  { instruction_sets :=
      { x86 := none, x86_64 := none, z80 := none, arm := some true, riscv := some true }
    assemblers := { gas := none, go := none, z80 := none, masm := none, nasm := none } }

/-- An instruction map in which nop is both an ARM and a RISC-V instruction. -/
def imapNop : InstrMap := fun arch name =>
  if (arch = Arch.arm ∨ arch = Arch.riscv) ∧ name = "nop" then some instrNopTemplates
  else none

/-- C5: with ARM and RISC-V both contributing template lines for the same
mnemonic, the signature-help value carries the bold arm heading but never a
bold riscv heading, because the riscv block reuses the has_arm flag; the claim
(and the spec) require each contributing architecture to get its own heading
exactly once. -/
theorem sig_help_riscv_heading_bug :
    get_sig_help_resp (some "nop") cfgArmRiscv imapNop (fun _ => "") =
      some { label := "nop", value := "**arm**\nnop\nnop\n" } ∧
    instrNopTemplates.asm_templates ≠ [] ∧
    containsSeq ("**arm**\nnop\nnop\n").toList ("**riscv**".toList) = false ∧
    containsSeq ("**arm**\nnop\nnop\n").toList ("**arm**".toList) = true := by
  exact ⟨by decide, by decide, by decide, by decide⟩

/-- Modelled from the spec: the per-architecture gate check used by the
completion filters (its body lives in the missing types.rs); the spec requires
that an unset gate is never treated as enabled. -/
def Config.is_isa_enabled (config : Config) (arch : Arch) : Bool :=
  match arch with
  | .x86 => config.instruction_sets.x86.getD false
  | .x86_64 => config.instruction_sets.x86_64.getD false
  | .z80 => config.instruction_sets.z80.getD false
  | .arm => config.instruction_sets.arm.getD false
  | .riscv => config.instruction_sets.riscv.getD false

/-- Modelled from the spec: the per-assembler gate check used by the completion
filters (its body lives in the missing types.rs). -/
def Config.is_assembler_enabled (config : Config) (assem : Assembler) : Bool :=
  match assem with
  | .gas => config.assemblers.gas.getD false
  | .go => config.assemblers.go.getD false
  | .z80 => config.assemblers.z80.getD false
  | .masm => config.assemblers.masm.getD false
  | .nasm => config.assemblers.nasm.getD false

/-- The kinds given to completion items by the engine. -/
inductive CompletionItemKind where
  | op
  | var
deriving DecidableEq, Repr

/-- A completion item: its label text and optional kind. -/
structure CompletionItem where
  label : String
  kind : Option CompletionItemKind
deriving DecidableEq, Repr

/-- A completion list; the engine always marks it incomplete. -/
structure CompletionList where
  is_incomplete : Bool
  items : List CompletionItem
deriving DecidableEq, Repr

/-- Whether a label starts with the given character. -/
def labelLeadsWithChar (label : String) (c : Char) : Bool :=
  match label.toList with
  | [] => false
  | a :: _ => a == c

/-- The optional required first character of filtered_comp_list_assem. -/
def pfxOk (pfx : Option Char) (label : String) : Bool :=
  match pfx with
  | none => true
  | some c => labelLeadsWithChar label c

/-- The filter loop of filtered_comp_list_arch in src/lsp.rs: drop items of
disabled architectures, then drop items whose label was already seen; only
kept items mark their label as seen. -/
def filtArchGo (config : Config) :
    List (Arch × CompletionItem) → List String → List CompletionItem
  | [], _ => []
  | (arch, item) :: rest, seen =>
    if config.is_isa_enabled arch then
      if item.label ∈ seen then filtArchGo config rest seen
      else item :: filtArchGo config rest (item.label :: seen)
    else filtArchGo config rest seen

/-- filtered_comp_list_arch of src/lsp.rs. -/
def filtered_comp_list_arch (comps : List (Arch × CompletionItem)) (config : Config) :
    List CompletionItem := filtArchGo config comps []

/-- The filter loop of filtered_comp_list_assem in src/lsp.rs: the assembler
gate is checked first, then the optional first-character requirement, then the
seen-labels check. -/
def filtAssemGo (config : Config) (pfx : Option Char) :
    List (Assembler × CompletionItem) → List String → List CompletionItem
  | [], _ => []
  | (assem, item) :: rest, seen =>
    if config.is_assembler_enabled assem then
      if pfxOk pfx item.label then
        if item.label ∈ seen then filtAssemGo config pfx rest seen
        else item :: filtAssemGo config pfx rest (item.label :: seen)
      else filtAssemGo config pfx rest seen
    else filtAssemGo config pfx rest seen

/-- filtered_comp_list_assem of src/lsp.rs. -/
def filtered_comp_list_assem (comps : List (Assembler × CompletionItem)) (config : Config)
    (pfx : Option Char) : List CompletionItem := filtAssemGo config pfx comps []

/-- The tree-query completion path of get_comp_resp in src/lsp.rs (everything
after the trigger-character fast paths).  The tree-sitter outcomes are
parameters: parsed (a tree exists), dirCapHit (the cursor falls in a
directive-name capture on its line), docLabels (the document-wide label
texts), and instrCapHit (the capture index the cursor falls in for the
instruction/operand pattern; index 0 is the mnemonic slot). -/
def comp_tree_path (config : Config)
    (instr_comps : List (Arch × CompletionItem))
    (dir_comps : List (Assembler × CompletionItem))
    (reg_comps : List (Arch × CompletionItem))
    (parsed : Bool) (dirCapHit : Bool) (docLabels : List String)
    (instrCapHit : Option Nat) : Option CompletionList :=
  if !parsed then none
  else if dirCapHit then
    some { is_incomplete := true, items := filtered_comp_list_assem dir_comps config none }
  else
    match instrCapHit with
    | some 0 =>
      some { is_incomplete := true,
             items := filtered_comp_list_arch instr_comps config ++
               filtered_comp_list_assem dir_comps config none }
    | some (_ + 1) =>
      some { is_incomplete := true,
             items := filtered_comp_list_arch reg_comps config ++
               docLabels.map (fun l => { label := l, kind := some CompletionItemKind.var }) }
    | none => none

/-- get_comp_resp of src/lsp.rs: the trigger-character fast paths, falling
through to the tree-query path when they do not return. -/
def get_comp_resp (trigger : Option String) (config : Config)
    (instr_comps : List (Arch × CompletionItem))
    (dir_comps : List (Assembler × CompletionItem))
    (reg_comps : List (Arch × CompletionItem))
    (parsed : Bool) (dirCapHit : Bool) (docLabels : List String)
    (instrCapHit : Option Nat) : Option CompletionList :=
  match trigger with
  | some t =>
    if t = "%" then
      let items :=
        (if config.instruction_sets.x86.getD false ||
            config.instruction_sets.x86_64.getD false
          then filtered_comp_list_arch reg_comps config else []) ++
        (if config.assemblers.nasm.getD false
          then filtered_comp_list_assem dir_comps config (some '%') else [])
      if items = [] then
        comp_tree_path config instr_comps dir_comps reg_comps parsed dirCapHit
          docLabels instrCapHit
      else some { is_incomplete := true, items := items }
    else if t = "." then
      if config.assemblers.gas.getD false || config.assemblers.masm.getD false ||
          config.assemblers.nasm.getD false then
        some { is_incomplete := true,
               items := filtered_comp_list_assem dir_comps config (some '.') }
      else
        comp_tree_path config instr_comps dir_comps reg_comps parsed dirCapHit
          docLabels instrCapHit
    else
      comp_tree_path config instr_comps dir_comps reg_comps parsed dirCapHit
        docLabels instrCapHit
  | none =>
    comp_tree_path config instr_comps dir_comps reg_comps parsed dirCapHit
      docLabels instrCapHit

/-- The architecture filter loop keeps no label already seen, produces
duplicate-free labels, and is an order-preserving sublist of the
enabled-architecture items. -/
theorem filtArchGo_spec (config : Config) (comps : List (Arch × CompletionItem)) :
    ∀ seen : List String,
      (∀ x ∈ filtArchGo config comps seen, x.label ∉ seen) ∧
      ((filtArchGo config comps seen).map (fun i => i.label)).Nodup ∧
      List.Sublist (filtArchGo config comps seen)
        ((comps.filter fun p => config.is_isa_enabled p.1).map Prod.snd) := by
  induction comps with
  | nil => intro seen; simp [filtArchGo]
  | cons hd rest ih =>
    intro seen
    obtain ⟨arch, item⟩ := hd
    by_cases he : config.is_isa_enabled arch
    · by_cases hs : item.label ∈ seen
      · obtain ⟨ih1, ih2, ih3⟩ := ih seen
        have heq : filtArchGo config ((arch, item) :: rest) seen =
            filtArchGo config rest seen := by
          simp [filtArchGo, he, hs]
        have hflt : ((((arch, item) :: rest).filter
            fun p => config.is_isa_enabled p.1).map Prod.snd) =
            item :: ((rest.filter fun p => config.is_isa_enabled p.1).map Prod.snd) := by
          simp [List.filter_cons, he]
        rw [heq, hflt]
        exact ⟨ih1, ih2, ih3.cons item⟩
      · obtain ⟨ih1, ih2, ih3⟩ := ih (item.label :: seen)
        have heq : filtArchGo config ((arch, item) :: rest) seen =
            item :: filtArchGo config rest (item.label :: seen) := by
          simp [filtArchGo, he, hs]
        have hflt : ((((arch, item) :: rest).filter
            fun p => config.is_isa_enabled p.1).map Prod.snd) =
            item :: ((rest.filter fun p => config.is_isa_enabled p.1).map Prod.snd) := by
          simp [List.filter_cons, he]
        rw [heq, hflt]
        refine ⟨?_, ?_, ih3.cons₂ item⟩
        · intro x hx
          rcases List.mem_cons.mp hx with hx1 | hx1
          · subst hx1; exact hs
          · exact fun hmem => ih1 x hx1 (List.mem_cons_of_mem _ hmem)
        · rw [List.map_cons, List.nodup_cons]
          refine ⟨?_, ih2⟩
          intro hmem
          obtain ⟨x, hx1, hlab⟩ := List.mem_map.mp hmem
          exact ih1 x hx1 (hlab ▸ List.mem_cons_self _ _)
    · obtain ⟨ih1, ih2, ih3⟩ := ih seen
      have heq : filtArchGo config ((arch, item) :: rest) seen =
          filtArchGo config rest seen := by
        simp [filtArchGo, he]
      have hflt : ((((arch, item) :: rest).filter
          fun p => config.is_isa_enabled p.1).map Prod.snd) =
          ((rest.filter fun p => config.is_isa_enabled p.1).map Prod.snd) := by
        simp [List.filter_cons, he]
      rw [heq, hflt]
      exact ⟨ih1, ih2, ih3⟩

/-- The assembler filter loop keeps no label already seen, produces
duplicate-free labels, and is an order-preserving sublist of the enabled,
right-prefixed items. -/
theorem filtAssemGo_spec (config : Config) (pfx : Option Char)
    (comps : List (Assembler × CompletionItem)) :
    ∀ seen : List String,
      (∀ x ∈ filtAssemGo config pfx comps seen, x.label ∉ seen) ∧
      ((filtAssemGo config pfx comps seen).map (fun i => i.label)).Nodup ∧
      List.Sublist (filtAssemGo config pfx comps seen)
        ((comps.filter fun p =>
          config.is_assembler_enabled p.1 && pfxOk pfx p.2.label).map Prod.snd) := by
  induction comps with
  | nil => intro seen; simp [filtAssemGo]
  | cons hd rest ih =>
    intro seen
    obtain ⟨assem, item⟩ := hd
    by_cases he : config.is_assembler_enabled assem
    · by_cases hp : pfxOk pfx item.label
      · by_cases hs : item.label ∈ seen
        · obtain ⟨ih1, ih2, ih3⟩ := ih seen
          have heq : filtAssemGo config pfx ((assem, item) :: rest) seen =
              filtAssemGo config pfx rest seen := by
            simp [filtAssemGo, he, hp, hs]
          have hflt : ((((assem, item) :: rest).filter fun p =>
              config.is_assembler_enabled p.1 && pfxOk pfx p.2.label).map Prod.snd) =
              item :: ((rest.filter fun p =>
                config.is_assembler_enabled p.1 && pfxOk pfx p.2.label).map Prod.snd) := by
            simp [List.filter_cons, he, hp]
          rw [heq, hflt]
          exact ⟨ih1, ih2, ih3.cons item⟩
        · obtain ⟨ih1, ih2, ih3⟩ := ih (item.label :: seen)
          have heq : filtAssemGo config pfx ((assem, item) :: rest) seen =
              item :: filtAssemGo config pfx rest (item.label :: seen) := by
            simp [filtAssemGo, he, hp, hs]
          have hflt : ((((assem, item) :: rest).filter fun p =>
              config.is_assembler_enabled p.1 && pfxOk pfx p.2.label).map Prod.snd) =
              item :: ((rest.filter fun p =>
                config.is_assembler_enabled p.1 && pfxOk pfx p.2.label).map Prod.snd) := by
            simp [List.filter_cons, he, hp]
          rw [heq, hflt]
          refine ⟨?_, ?_, ih3.cons₂ item⟩
          · intro x hx
            rcases List.mem_cons.mp hx with hx1 | hx1
            · subst hx1; exact hs
            · exact fun hmem => ih1 x hx1 (List.mem_cons_of_mem _ hmem)
          · rw [List.map_cons, List.nodup_cons]
            refine ⟨?_, ih2⟩
            intro hmem
            obtain ⟨x, hx1, hlab⟩ := List.mem_map.mp hmem
            exact ih1 x hx1 (hlab ▸ List.mem_cons_self _ _)
      · obtain ⟨ih1, ih2, ih3⟩ := ih seen
        have heq : filtAssemGo config pfx ((assem, item) :: rest) seen =
            filtAssemGo config pfx rest seen := by
          simp [filtAssemGo, he, hp]
        have hflt : ((((assem, item) :: rest).filter fun p =>
            config.is_assembler_enabled p.1 && pfxOk pfx p.2.label).map Prod.snd) =
            ((rest.filter fun p =>
              config.is_assembler_enabled p.1 && pfxOk pfx p.2.label).map Prod.snd) := by
          simp [List.filter_cons, hp]
        rw [heq, hflt]
        exact ⟨ih1, ih2, ih3⟩
    · obtain ⟨ih1, ih2, ih3⟩ := ih seen
      have heq : filtAssemGo config pfx ((assem, item) :: rest) seen =
          filtAssemGo config pfx rest seen := by
        simp [filtAssemGo, he]
      have hflt : ((((assem, item) :: rest).filter fun p =>
          config.is_assembler_enabled p.1 && pfxOk pfx p.2.label).map Prod.snd) =
          ((rest.filter fun p =>
            config.is_assembler_enabled p.1 && pfxOk pfx p.2.label).map Prod.snd) := by
        simp [List.filter_cons, he]
      rw [heq, hflt]
      exact ⟨ih1, ih2, ih3⟩

/-- C6 amended: each configuration-filtered completion sub-list carries no two
items with the same label and keeps the surviving items in first-seen order
(it is a sublist of the gate-filtered input); lists the engine builds by
concatenating two such sub-lists can still repeat a label across the two
sources. -/
theorem filtered_comp_lists_dedup_first_seen (config : Config)
    (archComps : List (Arch × CompletionItem))
    (assemComps : List (Assembler × CompletionItem)) (pfx : Option Char) :
    ((filtered_comp_list_arch archComps config).map (fun i => i.label)).Nodup ∧
    List.Sublist (filtered_comp_list_arch archComps config)
      ((archComps.filter fun p => config.is_isa_enabled p.1).map Prod.snd) ∧
    ((filtered_comp_list_assem assemComps config pfx).map (fun i => i.label)).Nodup ∧
    List.Sublist (filtered_comp_list_assem assemComps config pfx)
      ((assemComps.filter fun p =>
        config.is_assembler_enabled p.1 && pfxOk pfx p.2.label).map Prod.snd) := by
  obtain ⟨_, h2, h3⟩ := filtArchGo_spec config archComps []
  obtain ⟨_, k2, k3⟩ := filtAssemGo_spec config pfx assemComps []
  exact ⟨h2, h3, k2, k3⟩

/-- A configuration enabling only the x86 architecture. -/
def cfgX86Only : Config :=
  { instruction_sets :=
      { x86 := some true, x86_64 := none, z80 := none, arm := none, riscv := none }
    assemblers := { gas := none, go := none, z80 := none, masm := none, nasm := none } }

/-- A register completion source carrying the single x86 item rax. -/
def regRaxComps : List (Arch × CompletionItem) :=
  [(Arch.x86, { label := "rax", kind := some CompletionItemKind.var })]

/-- Counterexample to C6: in the register-operand completion branch the
engine appends every document label to the filtered register list, so a
document that defines a label named rax makes the returned list carry two
items labelled rax. -/
theorem comp_resp_duplicate_label_counterexample :
    get_comp_resp none cfgX86Only [] [] regRaxComps true false ["rax"] (some 1) =
      some { is_incomplete := true
             items := [{ label := "rax", kind := some CompletionItemKind.var },
                       { label := "rax", kind := some CompletionItemKind.var }] } ∧
    ¬ (([ "rax", "rax" ] : List String).Nodup) := by
  exact ⟨by decide, by decide⟩

/-- C10: a percent trigger whose fast path yields no items (both x86 gates
disabled, and NASM disabled or no percent-prefixed directive surviving) falls
through to the tree-query path instead of returning the empty list, while a
dot trigger returns its possibly empty directive list whenever any of GAS,
MASM or NASM is enabled. -/
theorem comp_resp_trigger_fallthrough (config : Config)
    (instr_comps : List (Arch × CompletionItem))
    (dir_comps : List (Assembler × CompletionItem))
    (reg_comps : List (Arch × CompletionItem))
    (parsed : Bool) (dirCapHit : Bool) (docLabels : List String)
    (instrCapHit : Option Nat) :
    ((config.instruction_sets.x86.getD false = false ∧
      config.instruction_sets.x86_64.getD false = false) →
      (config.assemblers.nasm.getD false = false ∨
        filtered_comp_list_assem dir_comps config (some '%') = []) →
      get_comp_resp (some "%") config instr_comps dir_comps reg_comps parsed dirCapHit
          docLabels instrCapHit =
        comp_tree_path config instr_comps dir_comps reg_comps parsed dirCapHit
          docLabels instrCapHit) ∧
    ((config.assemblers.gas.getD false || config.assemblers.masm.getD false ||
      config.assemblers.nasm.getD false) = true →
      get_comp_resp (some ".") config instr_comps dir_comps reg_comps parsed dirCapHit
          docLabels instrCapHit =
        some { is_incomplete := true
               items := filtered_comp_list_assem dir_comps config (some '.') }) := by
  constructor
  · rintro ⟨h1, h2⟩ hnasm
    rcases hnasm with hn | hn
    · simp [get_comp_resp, h1, h2, hn]
    · simp [get_comp_resp, h1, h2, hn]
  · intro h
    simp [get_comp_resp, h]

/-- Witness for C10: with every gate unset the percent trigger falls through
to the (here empty) tree path, and with GAS enabled the dot trigger returns
the filtered directive list. -/
theorem comp_resp_trigger_fallthrough_witness :
    get_comp_resp (some "%") configAllUnset [] [] [] false false [] none =
      comp_tree_path configAllUnset [] [] [] false false [] none ∧
    get_comp_resp (some ".") cfgGasOnly [] [] [] false false [] none =
      some { is_incomplete := true
             items := filtered_comp_list_assem [] cfgGasOnly (some '.') } := by
  constructor
  · exact (comp_resp_trigger_fallthrough configAllUnset [] [] [] false false [] none).1
      ⟨rfl, rfl⟩ (Or.inl rfl)
  · exact (comp_resp_trigger_fallthrough cfgGasOnly [] [] [] false false [] none).2
      (by decide)

/-- An LSP position: zero-indexed line and UTF-16 column. -/
structure LspPosition where
  line : Nat
  character : Nat
deriving DecidableEq, Repr

/-- An LSP range; the source field named end is spelled endPos here. -/
structure LspRange where
  start : LspPosition
  endPos : LspPosition
deriving DecidableEq, Repr

/-- A TextDocumentContentChangeEvent: an optional replaced range and the
replacement text (no range means full-document replacement). -/
structure ContentChangeEvent where
  range : Option LspRange
  text : String
deriving DecidableEq, Repr

/-- A tree-sitter point: row and column. -/
structure TsPoint where
  row : Nat
  column : Nat
deriving DecidableEq, Repr

/-- A tree-sitter InputEdit as filled in by text_doc_change_to_ts_edit. -/
structure TsInputEdit where
  start_byte : Nat
  old_end_byte : Nat
  new_end_byte : Nat
  start_position : TsPoint
  old_end_position : TsPoint
  new_end_position : TsPoint
deriving DecidableEq, Repr

/-- The two failure modes of text_doc_change_to_ts_edit: a change without a
range, or a byte offset that does not fit in u32. -/
inductive TsEditError where
  | invalidEditRange
  | intConversion
deriving DecidableEq, Repr

/-- A FullTextDocument of the external lsp_textdocument crate, abstracted to
the two coordinate conversions the engine calls on it. -/
structure FullTextDocumentModel where
  offset_at : LspPosition → Nat
  position_at : Nat → LspPosition

/-- text_doc_change_to_ts_edit of src/lsp.rs: reject a change without a range
with the invalid-edit-range error; otherwise convert, failing with a
conversion error when the new end byte exceeds u32 (the text length is the
Rust byte length, i.e. UTF-8 size). -/
def text_doc_change_to_ts_edit (change : ContentChangeEvent)
    (doc : FullTextDocumentModel) : Except TsEditError TsInputEdit :=
  match change.range with
  | none => .error .invalidEditRange
  | some range =>
    if doc.offset_at range.start + change.text.utf8ByteSize < 2 ^ 32 then
      .ok { start_byte := doc.offset_at range.start
            old_end_byte := doc.offset_at range.endPos
            new_end_byte := doc.offset_at range.start + change.text.utf8ByteSize
            start_position := { row := range.start.line, column := range.start.character }
            old_end_position := { row := range.endPos.line, column := range.endPos.character }
            new_end_position :=
              { row := (doc.position_at
                  (doc.offset_at range.start + change.text.utf8ByteSize)).line
                column := (doc.position_at
                  (doc.offset_at range.start + change.text.utf8ByteSize)).character } }
    else .error .intConversion

/-- C7: the conversion fails with the invalid-edit-range error exactly when
the change carries no range; when a range is present and the offsets fit in
u32, it succeeds with start byte the offset of the range start, old end byte
the offset of the range end, and new end byte the start byte plus the byte
length of the replacement text. -/
theorem text_doc_change_to_ts_edit_spec (change : ContentChangeEvent)
    (doc : FullTextDocumentModel) :
    (text_doc_change_to_ts_edit change doc = .error .invalidEditRange ↔
      change.range = none) ∧
    (∀ r, change.range = some r →
      doc.offset_at r.start + change.text.utf8ByteSize < 2 ^ 32 →
      ∃ edit, text_doc_change_to_ts_edit change doc = .ok edit ∧
        edit.start_byte = doc.offset_at r.start ∧
        edit.old_end_byte = doc.offset_at r.endPos ∧
        edit.new_end_byte = doc.offset_at r.start + change.text.utf8ByteSize) := by
  constructor
  · constructor
    · intro h
      cases hr : change.range with
      | none => rfl
      | some r =>
        exfalso
        have hne : text_doc_change_to_ts_edit change doc ≠ .error .invalidEditRange := by
          unfold text_doc_change_to_ts_edit
          rw [hr]
          split
          · simp_all
          · split <;> simp
        exact hne h
    · intro h
      rw [text_doc_change_to_ts_edit, h]
  · intro r hr hfit
    rw [text_doc_change_to_ts_edit, hr]
    simp only [hfit, if_pos]
    exact ⟨_, rfl, rfl, rfl, rfl⟩

/-- A concrete document model for the witness: offsets are line times one
hundred plus column. -/
def docLinear : FullTextDocumentModel :=
  { offset_at := fun p => p.line * 100 + p.character
    position_at := fun n => { line := n / 100, character := n % 100 } }

/-- A concrete ranged change replacing three characters by the text abc. -/
def changeAbc : ContentChangeEvent :=
  { range := some { start := { line := 1, character := 2 }
                    endPos := { line := 1, character := 5 } }
    text := "abc" }

/-- A change carrying no range. -/
def changeNoRange : ContentChangeEvent := { range := none, text := "xyz" }

/-- Witness for C7: the rangeless change is rejected with the
invalid-edit-range error, and the ranged change produces the expected byte
triple. -/
theorem text_doc_change_to_ts_edit_spec_witness :
    text_doc_change_to_ts_edit changeNoRange docLinear =
      .error TsEditError.invalidEditRange ∧
    ∃ edit, text_doc_change_to_ts_edit changeAbc docLinear = .ok edit ∧
      edit.start_byte = 102 ∧ edit.old_end_byte = 105 ∧ edit.new_end_byte = 105 := by
  constructor
  · exact (text_doc_change_to_ts_edit_spec changeNoRange docLinear).1.mpr rfl
  · obtain ⟨edit, h1, h2, h3, h4⟩ :=
      (text_doc_change_to_ts_edit_spec changeAbc docLinear).2
        { start := { line := 1, character := 2 }, endPos := { line := 1, character := 5 } }
        rfl (by decide)
    exact ⟨edit, h1, h2.trans (by decide), h3.trans (by decide), h4.trans (by decide)⟩

/-- A syntax-tree node as the symbol walker consumes it: its kind name, its
source text, its end byte, and its children (the tree-sitter tree itself is an
external collaborator). -/
inductive TSNode where
  | node (kind : String) (text : String) (endByte : Nat) (children : List TSNode)

/-- The kind of a node. -/
def TSNode.kind : TSNode → String
  | .node k _ _ _ => k

/-- The source text of a node. -/
def TSNode.text : TSNode → String
  | .node _ t _ _ => t

/-- The end byte of a node. -/
def TSNode.endByte : TSNode → Nat
  | .node _ _ e _ => e

/-- The children of a node. -/
def TSNode.children : TSNode → List TSNode
  | .node _ _ _ c => c

/-- The only symbol kind the walker ever emits (SymbolKind FUNCTION). -/
inductive SymKind where
  | function
deriving DecidableEq, Repr

/-- A document symbol: name, kind and nested children (an empty child list
models the None children field of the LSP structure). -/
inductive DocSymbol where
  | mk (name : String) (kind : SymKind) (children : List DocSymbol)

/-- The name of a document symbol. -/
def DocSymbol.name : DocSymbol → String
  | .mk n _ _ => n

/-- The guard of the description loop in explore_node of src/lsp.rs: an
in-document child of kind ident. -/
def validIdentChild (docLen : Nat) (c : TSNode) : Bool :=
  c.endByte < docLen && c.kind == "ident"

/-- The descr accumulation of explore_node in src/lsp.rs: each valid ident
child overwrites the description in order. -/
def labelDescr (docLen : Nat) (children : List TSNode) : String :=
  children.foldl (fun d c => if validIdentChild docLen c then c.text else d) ""

mutual

/-- explore_node of src/lsp.rs: a label node becomes one FUNCTION symbol named
by the ident-child description, with the recursively explored children; any
other node contributes only its recursively explored children, flattened. -/
def explore_node (docLen : Nat) : TSNode → List DocSymbol
  | .node kind _text _endByte children =>
    if kind = "label" then
      [DocSymbol.mk (labelDescr docLen children) SymKind.function
        (exploreChildren docLen children)]
    else exploreChildren docLen children

/-- The child loop of explore_node: explore each child in order and
concatenate the results into the parent's list. -/
def exploreChildren (docLen : Nat) : List TSNode → List DocSymbol
  | [] => []
  | c :: rest => explore_node docLen c ++ exploreChildren docLen rest

end

/-- get_document_symbols of src/lsp.rs: no tree means no result, otherwise the
exploration of the root node. -/
def get_document_symbols (docLen : Nat) : Option TSNode → Option (List DocSymbol)
  | none => none
  | some root => some (explore_node docLen root)

/-- Modelled from the spec: the text of the first identifier child (the claim
says the symbol name is this text). -/
def firstIdentChildText (docLen : Nat) (children : List TSNode) : Option String :=
  ((children.filter (validIdentChild docLen)).head?).map TSNode.text

/-- Modelled from the amended claim: the text of the last in-document
identifier child. -/
def lastIdentChildText (docLen : Nat) (children : List TSNode) : Option String :=
  ((children.filter (validIdentChild docLen)).getLast?).map TSNode.text

/-- The overwrite fold of labelDescr computes the text of the last valid ident
child, with the accumulator as default. -/
theorem labelDescr_foldl (docLen : Nat) (l : List TSNode) :
    ∀ d : String,
      List.foldl (fun d c => if validIdentChild docLen c then c.text else d) d l =
      (((l.filter (validIdentChild docLen)).getLast?).map TSNode.text).getD d := by
  induction l with
  | nil => intro d; rfl
  | cons c rest ih =>
    intro d
    rw [List.foldl_cons, ih]
    by_cases hc : validIdentChild docLen c
    · rw [List.filter_cons_of_pos (by simpa using hc), if_pos hc]
      cases hfr : rest.filter (validIdentChild docLen) with
      | nil => simp
      | cons x xs =>
        rw [List.getLast?_cons_cons]
        cases hgl : (x :: xs).getLast? with
        | none => simp at hgl
        | some y => simp
    · rw [List.filter_cons_of_neg (by simpa using hc), if_neg hc]

/-- The child loop flattens the per-child explorations. -/
theorem exploreChildren_eq_join (docLen : Nat) (l : List TSNode) :
    exploreChildren docLen l = (l.map (explore_node docLen)).flatten := by
  induction l with
  | nil => rfl
  | cons c rest ih => simp [exploreChildren, ih]

/-- C8 amended: a label node becomes exactly one symbol, of the fixed FUNCTION
kind, named by the text of its last in-document identifier child (empty when
there is none) and carrying the flattened explorations of its children; every
other node contributes only the flattened explorations of its children. -/
theorem explore_node_amended (docLen : Nat) (kind text : String) (endByte : Nat)
    (children : List TSNode) :
    explore_node docLen (.node kind text endByte children) =
      if kind = "label" then
        [DocSymbol.mk ((lastIdentChildText docLen children).getD "") SymKind.function
          ((children.map (explore_node docLen)).flatten)]
      else (children.map (explore_node docLen)).flatten := by
  by_cases hk : kind = "label"
  · rw [explore_node, if_pos hk, if_pos hk, exploreChildren_eq_join]
    unfold labelDescr lastIdentChildText
    rw [labelDescr_foldl]
  · rw [explore_node, if_neg hk, if_neg hk, exploreChildren_eq_join]

/-- A label node with two in-document identifier children. -/
def labelTwoIdents : TSNode :=
  .node "label" "lbl:" 10
    [.node "ident" "first_id" 3 [], .node "ident" "second_id" 7 []]

/-- Counterexample to C8: a label node with two identifier children is mapped
to a symbol named by the last one, not the first. -/
theorem document_symbols_first_ident_counterexample :
    (explore_node 100 labelTwoIdents).map DocSymbol.name = ["second_id"] ∧
    firstIdentChildText 100 labelTwoIdents.children = some "first_id" ∧
    "first_id" ≠ "second_id" := by
  refine ⟨?_, by simp [firstIdentChildText, labelTwoIdents, TSNode.children,
    validIdentChild, TSNode.kind, TSNode.endByte, TSNode.text], by decide⟩
  simp [labelTwoIdents, explore_node, exploreChildren, labelDescr, validIdentChild,
    TSNode.kind, TSNode.endByte, TSNode.text, DocSymbol.name]

/-- A capture produced by a document-wide tree query (tree-sitter is
external): the node's text, its start and end points, and its end byte. -/
structure CaptureNode where
  text : String
  startPos : TsPoint
  endPos : TsPoint
  endByte : Nat
deriving DecidableEq, Repr

/-- An LSP location: URI plus range, the dedup key of the references set. -/
structure Location where
  uri : String
  rangeStart : TsPoint
  rangeEnd : TsPoint
deriving DecidableEq, Repr

/-- The is_not_ident_char predicate of get_ref_resp in src/lsp.rs. -/
def isNotIdentChar (c : Char) : Bool := !(c.isAlphanum || c == '_')

/-- Drop matching characters from the end of a character list. -/
def dropEndWhile (p : Char → Bool) (l : List Char) : List Char :=
  ((l.reverse).dropWhile p).reverse

/-- The capture-text normalization of get_ref_resp: whitespace trim followed
by trim_matches on non-identifier characters, both performed on the character
sequence. -/
def trimRefText (s : String) : String :=
  String.mk (dropEndWhile isNotIdentChar
    ((dropEndWhile Char.isWhitespace
      (s.toList.dropWhile Char.isWhitespace)).dropWhile isNotIdentChar))

/-- HashSet insertion, modelled as an insertion-ordered duplicate-free list. -/
def insertLoc (refs : List Location) (l : Location) : List Location :=
  if l ∈ refs then refs else refs ++ [l]

/-- One capture loop of get_ref_resp in src/lsp.rs: skip captures running past
the document, keep those whose trimmed text equals the cursor word, and insert
their locations into the set. -/
def addRefMatches (word uri : String) (docLen : Nat) (caps : List CaptureNode)
    (refs : List Location) : List Location :=
  caps.foldl
    (fun acc cap =>
      if cap.endByte ≥ docLen then acc
      else if trimRefText cap.text = word then
        insertLoc acc { uri := uri, rangeStart := cap.startPos, rangeEnd := cap.endPos }
      else acc)
    refs

/-- get_ref_resp of src/lsp.rs: the label-definition captures are inserted
only when the request asks to include declarations; the identifier captures
are always inserted; the result is the accumulated set. -/
def get_ref_resp (include_declaration : Bool) (word uri : String) (docLen : Nat)
    (labelCaps identCaps : List CaptureNode) : List Location :=
  let refs := if include_declaration then addRefMatches word uri docLen labelCaps []
    else []
  addRefMatches word uri docLen identCaps refs

/-- Membership in the set after one insertion. -/
theorem insertLoc_mem {refs : List Location} {l loc : Location} :
    loc ∈ insertLoc refs l ↔ loc ∈ refs ∨ loc = l := by
  unfold insertLoc
  by_cases hm : l ∈ refs
  · simp only [hm, if_pos]
    constructor
    · exact Or.inl
    · rintro (h | rfl)
      · exact h
      · exact hm
  · simp [hm]

/-- Insertion keeps the set duplicate-free. -/
theorem insertLoc_nodup {refs : List Location} (l : Location) (h : refs.Nodup) :
    (insertLoc refs l).Nodup := by
  unfold insertLoc
  by_cases hm : l ∈ refs
  · simpa [hm] using h
  · simp [hm, List.nodup_append, h]

/-- The capture loop keeps the set duplicate-free, and every member of the
result is either carried over or the location of an in-document capture whose
trimmed text is the cursor word. -/
theorem addRefMatches_spec (word uri : String) (docLen : Nat) :
    ∀ (caps : List CaptureNode) (refs : List Location),
      (refs.Nodup → (addRefMatches word uri docLen caps refs).Nodup) ∧
      (∀ loc ∈ addRefMatches word uri docLen caps refs,
        loc ∈ refs ∨ ∃ cap ∈ caps, cap.endByte < docLen ∧ trimRefText cap.text = word ∧
          loc = { uri := uri, rangeStart := cap.startPos, rangeEnd := cap.endPos }) := by
  intro caps
  induction caps with
  | nil => exact fun refs => ⟨id, fun loc h => Or.inl h⟩
  | cons cap rest ih =>
    intro refs
    by_cases hge : cap.endByte ≥ docLen
    · have heq : addRefMatches word uri docLen (cap :: rest) refs =
          addRefMatches word uri docLen rest refs := by
        unfold addRefMatches
        rw [List.foldl_cons, if_pos hge]
      rw [heq]
      refine ⟨(ih refs).1, fun loc hm => ?_⟩
      rcases (ih refs).2 loc hm with h | ⟨c, hc, h1, h2, h3⟩
      · exact Or.inl h
      · exact Or.inr ⟨c, List.mem_cons_of_mem _ hc, h1, h2, h3⟩
    · by_cases htr : trimRefText cap.text = word
      · have heq : addRefMatches word uri docLen (cap :: rest) refs =
            addRefMatches word uri docLen rest
              (insertLoc refs
                { uri := uri, rangeStart := cap.startPos, rangeEnd := cap.endPos }) := by
          unfold addRefMatches
          rw [List.foldl_cons, if_neg hge, if_pos htr]
        rw [heq]
        refine ⟨fun h => (ih _).1 (insertLoc_nodup _ h), fun loc hm => ?_⟩
        rcases (ih _).2 loc hm with h | ⟨c, hc, h1, h2, h3⟩
        · rcases insertLoc_mem.mp h with h | rfl
          · exact Or.inl h
          · exact Or.inr ⟨cap, List.mem_cons_self _ _, by omega, htr, rfl⟩
        · exact Or.inr ⟨c, List.mem_cons_of_mem _ hc, h1, h2, h3⟩
      · have heq : addRefMatches word uri docLen (cap :: rest) refs =
            addRefMatches word uri docLen rest refs := by
          unfold addRefMatches
          rw [List.foldl_cons, if_neg hge, if_neg htr]
        rw [heq]
        refine ⟨(ih refs).1, fun loc hm => ?_⟩
        rcases (ih refs).2 loc hm with h | ⟨c, hc, h1, h2, h3⟩
        · exact Or.inl h
        · exact Or.inr ⟨c, List.mem_cons_of_mem _ hc, h1, h2, h3⟩

/-- C9: with include_declaration false, every returned location is the
location of an in-document identifier capture whose trimmed text equals the
cursor word (the label-definition captures are never consulted), and the
returned list never holds two identical (URI, range) locations. -/
theorem get_ref_resp_no_decl_spec (word uri : String) (docLen : Nat)
    (labelCaps identCaps : List CaptureNode) :
    (∀ loc ∈ get_ref_resp false word uri docLen labelCaps identCaps,
      ∃ cap ∈ identCaps, cap.endByte < docLen ∧ trimRefText cap.text = word ∧
        loc = { uri := uri, rangeStart := cap.startPos, rangeEnd := cap.endPos }) ∧
    (get_ref_resp false word uri docLen labelCaps identCaps).Nodup ∧
    get_ref_resp false word uri docLen labelCaps identCaps =
      get_ref_resp false word uri docLen [] identCaps := by
  refine ⟨fun loc hm => ?_, ?_, rfl⟩
  · rcases (addRefMatches_spec word uri docLen identCaps []).2 loc hm with h | h
    · exact absurd h (List.not_mem_nil loc)
    · exact h
  · exact (addRefMatches_spec word uri docLen identCaps []).1 List.nodup_nil

/-- An identifier-operand capture of the word loop, present twice (two query
matches can capture the same node). -/
def capLoopUse : CaptureNode :=
  { text := "loop", startPos := { row := 3, column := 4 }
    endPos := { row := 3, column := 8 }, endByte := 40 }

/-- The label-definition capture of loop. -/
def capLoopDef : CaptureNode :=
  { text := "loop:", startPos := { row := 0, column := 0 }
    endPos := { row := 0, column := 5 }, endByte := 5 }

/-- Witness for C9: on a concrete request without declarations the returned
list is duplicate-free, and it evaluates to the single use-site location even
though the same capture occurred twice and a label definition existed. -/
theorem get_ref_resp_no_decl_spec_witness :
    (get_ref_resp false "loop" "file:a.s" 100 [capLoopDef] [capLoopUse, capLoopUse]).Nodup ∧
    get_ref_resp false "loop" "file:a.s" 100 [capLoopDef] [capLoopUse, capLoopUse] =
      [{ uri := "file:a.s", rangeStart := { row := 3, column := 4 }
         rangeEnd := { row := 3, column := 8 } }] := by
  refine ⟨(get_ref_resp_no_decl_spec "loop" "file:a.s" 100 [capLoopDef]
    [capLoopUse, capLoopUse]).2.1, by decide⟩
